import Mathlib

/-
Verification of the `Eqint` equivalence-class integer abstraction and the
`Polynomial` class from the classes/OOP notebook.

The `Polynomial` class is embedded directly from the notebook source.
The `Eqint` operations appear in the repository only as exercise prompts
(no reference solution is present), so they are modelled from the spec's
description of the EqintEngine component, faithful to its words.
-/

namespace ClassesOop

/-- Kind of a Python ordered sequence: list, tuple or string. -/
inductive SeqKind : Type where
  | list : SeqKind
  | tuple : SeqKind
  | str : SeqKind
deriving DecidableEq

/-- A Python object that can appear as a sequence element: an integer, a
character (element of a string), or an `Eqint` object (carrying the kind and
elements of its stored sequence). Element contents are semantically opaque to
the EqintEngine; only sequence length matters. -/
inductive PyObj : Type where
  | intV : Int → PyObj
  | charV : Char → PyObj
  | eqintV : SeqKind → List PyObj → PyObj

/-- A finite ordered Python sequence: its kind together with its elements. -/
structure PySeq : Type where
  kind : SeqKind
  elems : List PyObj

/-- Length of a sequence, as `len` returns it in Python. -/
def PySeq.length (s : PySeq) : Nat := s.elems.length

/-- Modelled from the spec: the `EqintValue` data model — an equivalence-class
integer stores the sequence it was initialized from. (The repository contains
only the exercise prompt for `Eqint`, not a reference implementation.) -/
structure Eqint : Type where
  sequence : PySeq

/-- Modelled from the spec: the derived attribute `magnitude` — the length of
the stored sequence. -/
def Eqint.magnitude (e : Eqint) : Nat := e.sequence.length

/-- View an `Eqint` object as a Python object, so it can be an element of
another sequence (as in the inductive construction of the naturals). -/
def Eqint.toObj (e : Eqint) : PyObj := PyObj.eqintV e.sequence.kind e.sequence.elems

/-- Modelled from the spec: `Construct(sequence) → EqintValue` — initialized
by a sequence, stores the sequence; any finite sequence, including the empty
one, is valid and there is no error condition. -/
def Construct (s : PySeq) : Eqint := ⟨s⟩

/-- Modelled from the spec: `Display(value) → text` — a textual rendering of
the value's magnitude (the integer length of its sequence) as a string. -/
def Eqint.display (e : Eqint) : String := toString e.magnitude

/-- Modelled from the spec: `Equals(a, b) → boolean` — true iff the two
magnitudes are equal, regardless of the kinds or contents of the sequences. -/
def Eqint.equals (a b : Eqint) : Bool := a.magnitude == b.magnitude

/-- Modelled from the spec: `Add(a, b) → EqintValue` — the two sequences are
normalized to a uniform representation (a list) and combined, producing a new
value whose magnitude is the sum of the operands' magnitudes. -/
def Eqint.add (a b : Eqint) : Eqint :=
  ⟨⟨SeqKind.list, a.sequence.elems ++ b.sequence.elems⟩⟩

/-- Modelled from the spec: one step of the inductive construction of the
naturals — the next integer is the `Eqint` defined by a copy of the accumulated
list `positive_integers` of values produced so far, appended to that list.
(The zero step is the same step at the empty accumulator.) -/
def generateStep (acc : List Eqint) : List Eqint :=
  acc ++ [Construct ⟨SeqKind.list, acc.map Eqint.toObj⟩]

/-- Modelled from the spec: `GenerateNaturals(count)` — starting from an empty
list, repeat the successor step `count` times, producing values representing
0, 1, 2, …, count-1. -/
def generateNaturals : Nat → List Eqint
  | 0 => []
  | n + 1 => generateStep (generateNaturals n)

/-- A heap of `Eqint` objects: the object at address `k` is the `k`-th entry.
Used to express object identity and non-destructiveness of addition. -/
abbrev Heap : Type := List Eqint

/-- The zero value, used as the out-of-range default for heap reads. -/
def zeroEqint : Eqint := Construct ⟨SeqKind.list, []⟩

/-- Modelled from the spec: addition at the object level — reads the operands
at addresses `i` and `j`, allocates the (fresh) result at the next free
address, and returns the new heap together with the result's address. -/
def hadd (h : Heap) (i j : Nat) : Heap × Nat :=
  (h ++ [(h.getD i zeroEqint).add (h.getD j zeroEqint)], h.length)

/-- The `Polynomial` class from the notebook: stores its roots and leading
term; the order is the number of roots. -/
structure Polynomial : Type where
  roots : List Int
  leading_term : Int

/-- `self.order = len(roots)` from `Polynomial.__init__`. -/
def Polynomial.order (p : Polynomial) : Nat := p.roots.length

/-- `Polynomial.multiply`: concatenates the roots, multiplies the leading
terms, and returns the new polynomial built from them. -/
def Polynomial.multiply (p other : Polynomial) : Polynomial :=
  ⟨p.roots ++ other.roots, p.leading_term * other.leading_term⟩

/- ------------------------------------------------------------------ -/
/- Basic lemmas about the model. -/

theorem magnitude_construct (s : PySeq) : (Construct s).magnitude = s.length := rfl

theorem magnitude_add (a b : Eqint) :
    (a.add b).magnitude = a.magnitude + b.magnitude := by
  simp [Eqint.add, Eqint.magnitude, PySeq.length]

theorem generateNaturals_length (n : Nat) : (generateNaturals n).length = n := by
  induction n with
  | zero => rfl
  | succ m ih => simp [generateNaturals, generateStep, ih]

theorem generateNaturals_map_magnitude (n : Nat) :
    (generateNaturals n).map Eqint.magnitude = List.range n := by
  induction n with
  | zero => rfl
  | succ m ih =>
      simp [generateNaturals, generateStep, List.range_succ, ih,
        Eqint.magnitude, Construct, PySeq.length, generateNaturals_length]

theorem generateNaturals_take (count n : Nat) (h : n ≤ count) :
    (generateNaturals count).take n = generateNaturals n := by
  induction count with
  | zero =>
      have : n = 0 := Nat.le_zero.mp h
      subst this
      rfl
  | succ m ih =>
      rcases Nat.lt_or_ge n (m + 1) with hl | hg
      · have hm : n ≤ m := Nat.lt_succ_iff.mp hl
        show ((generateNaturals m) ++ _).take n = _
        rw [List.take_append_of_le_length (by rw [generateNaturals_length]; exact hm)]
        exact ih hm
      · have : n = m + 1 := Nat.le_antisymm h hg
        subst this
        exact List.take_of_length_le (by rw [generateNaturals_length])

theorem generateNaturals_get (count n : Nat) (h : n < count) :
    (generateNaturals count)[n]? =
      some (Construct ⟨SeqKind.list, (generateNaturals n).map Eqint.toObj⟩) := by
  induction count with
  | zero => exact absurd h (Nat.not_lt_zero n)
  | succ m ih =>
      show ((generateNaturals m) ++ _)[n]? = _
      rcases Nat.lt_or_ge n m with hl | hg
      · rw [List.getElem?_append_left (by rw [generateNaturals_length]; exact hl)]
        exact ih hl
      · have : n = m := Nat.le_antisymm (Nat.lt_succ_iff.mp h) hg
        subst this
        have hlen : (generateNaturals n).length = n := generateNaturals_length n
        calc ((generateNaturals n) ++
                [Construct ⟨SeqKind.list, (generateNaturals n).map Eqint.toObj⟩])[n]?
            = ((generateNaturals n) ++
                [Construct ⟨SeqKind.list,
                  (generateNaturals n).map Eqint.toObj⟩])[(generateNaturals n).length]? := by
              rw [hlen]
          _ = some (Construct ⟨SeqKind.list, (generateNaturals n).map Eqint.toObj⟩) :=
              List.getElem?_concat_length _ _

/- ------------------------------------------------------------------ -/
/- Claims. -/

/-- C1: for every finite sequence `s` (including the empty sequence),
`Construct s` is defined with no error condition and returns a value whose
magnitude equals the length of `s`. -/
theorem eqint_construct_magnitude (s : PySeq) :
    (Construct s).magnitude = s.length ∧ (Construct ⟨s.kind, []⟩).magnitude = 0 :=
  ⟨rfl, rfl⟩

/-- C2: `Equals a b` is true iff `a.magnitude = b.magnitude`, regardless of
the kinds or contents of the underlying sequences. -/
theorem eqint_equals_iff_magnitude (a b : Eqint) :
    a.equals b = true ↔ a.magnitude = b.magnitude := by
  simp [Eqint.equals]

/-- C3: `Add a b` returns a value whose magnitude is the sum of the operands'
magnitudes, for any sequence kinds and contents; in particular adding two
values built from single-element sequences gives magnitude 2. -/
theorem eqint_add_magnitude (a b : Eqint) (x y : PyObj) (k k' : SeqKind) :
    (a.add b).magnitude = a.magnitude + b.magnitude ∧
      ((Construct ⟨k, [x]⟩).add (Construct ⟨k', [y]⟩)).magnitude = 2 := by
  constructor
  · simp [Eqint.add, Eqint.magnitude, PySeq.length]
  · rfl

/-- C6: `Display (Construct s)` returns the textual rendering of the value's
magnitude, i.e. of the integer `length s`, and returns the same text on
repeated calls. -/
theorem eqint_display_renders_magnitude (s : PySeq) :
    (Construct s).display = toString s.length ∧
      (Construct s).display = (Construct s).display :=
  ⟨rfl, rfl⟩

/-- C7: addition is associative in magnitude. -/
theorem eqint_add_assoc_magnitude (a b c : Eqint) :
    ((a.add b).add c).magnitude = (a.add (b.add c)).magnitude := by
  simp [Eqint.add, Eqint.magnitude, PySeq.length, List.append_assoc]

/-- C9: construction, display, equality and addition are total over every
finite sequence input, including the empty sequence: on every input each
operation returns its specified result and no failure branch exists. -/
theorem eqint_ops_total (s : PySeq) (a b : Eqint) :
    (Construct s).magnitude = s.length ∧
      (Construct s).display = toString s.length ∧
      a.equals b = decide (a.magnitude = b.magnitude) ∧
      (a.add b).magnitude = a.magnitude + b.magnitude := by
  refine ⟨rfl, rfl, ?_, ?_⟩
  · by_cases h : a.magnitude = b.magnitude <;> simp [Eqint.equals, h]
  · simp [Eqint.add, Eqint.magnitude, PySeq.length]

/-- C4: for every `count ≥ 0`, `GenerateNaturals count` terminates and
produces exactly `count` values whose magnitudes are `0, 1, …, count-1` in
that order (the value at index `n` has a sequence of length `n`). -/
theorem generateNaturals_magnitudes (count : Nat) :
    (generateNaturals count).length = count ∧
      (generateNaturals count).map Eqint.magnitude = List.range count :=
  ⟨generateNaturals_length count, generateNaturals_map_magnitude count⟩

/-- C5 counterexample: in `GenerateNaturals 4`, the value at index 3 has
magnitude 3, while the sum of all previously generated magnitudes plus one is
`(0 + 1 + 2) + 1 = 4`, so its magnitude is not the sum of the previous
magnitudes plus one (hence its sequence is not the concatenation of the
previous values' sequences extended by one marker element). -/
theorem generateNaturals_not_sum_plus_one :
    ((generateNaturals 4).map Eqint.magnitude)[3]? = some 3 ∧
      (((generateNaturals 4).take 3).map Eqint.magnitude).sum + 1 = 4 ∧
      ((generateNaturals 4).map Eqint.magnitude)[3]? ≠
        some ((((generateNaturals 4).take 3).map Eqint.magnitude).sum + 1) := by
  decide

/-- C5 amended: in `GenerateNaturals`, every generated value's underlying
sequence is a copy of the list of all previously generated values so far (one
element per previous value), so its magnitude equals the number of previously
generated values (the running index), not the sum of their magnitudes plus
one. -/
theorem generateNaturals_seq_copy_of_priors (count n : Nat) (h : n < count) :
    ∃ e, (generateNaturals count)[n]? = some e ∧
      e.sequence = ⟨SeqKind.list, ((generateNaturals count).take n).map Eqint.toObj⟩ ∧
      e.magnitude = n := by
  refine ⟨Construct ⟨SeqKind.list, (generateNaturals n).map Eqint.toObj⟩,
    generateNaturals_get count n h, ?_, ?_⟩
  · rw [generateNaturals_take count n (Nat.le_of_lt h)]
    rfl
  · show ((generateNaturals n).map Eqint.toObj).length = n
    rw [List.length_map, generateNaturals_length]

/-- Witness for C5 amended at `count = 4`, `n = 3`. -/
theorem generateNaturals_seq_copy_witness :
    ∃ e, (generateNaturals 4)[3]? = some e ∧
      e.sequence = ⟨SeqKind.list, ((generateNaturals 4).take 3).map Eqint.toObj⟩ ∧
      e.magnitude = 3 :=
  generateNaturals_seq_copy_of_priors 4 3 (by decide)

/-- C8: addition at the object level is non-destructive — the result is
allocated at a fresh address distinct from both operand addresses, every
object already on the heap (the operands included) is unchanged, and the new
object is the sum of the operands. -/
theorem eqint_add_nondestructive (h : Heap) (i j : Nat)
    (hi : i < h.length) (hj : j < h.length) :
    (hadd h i j).2 ≠ i ∧ (hadd h i j).2 ≠ j ∧
      (∀ k, k < h.length → ((hadd h i j).1)[k]? = h[k]?) ∧
      ((hadd h i j).1)[(hadd h i j).2]? =
        some ((h.getD i zeroEqint).add (h.getD j zeroEqint)) := by
  refine ⟨Nat.ne_of_gt hi, Nat.ne_of_gt hj, ?_, ?_⟩
  · intro k hk
    exact List.getElem?_append_left hk
  · exact List.getElem?_concat_length _ _

/-- Witness for C8 on a concrete two-object heap. -/
theorem eqint_add_nondestructive_witness :
    (hadd [zeroEqint, Construct ⟨SeqKind.tuple, [PyObj.intV 1]⟩] 0 1).2 ≠ 0 ∧
      (hadd [zeroEqint, Construct ⟨SeqKind.tuple, [PyObj.intV 1]⟩] 0 1).2 ≠ 1 :=
  ⟨(eqint_add_nondestructive [zeroEqint, Construct ⟨SeqKind.tuple, [PyObj.intV 1]⟩] 0 1
      (by decide) (by decide)).1,
   (eqint_add_nondestructive [zeroEqint, Construct ⟨SeqKind.tuple, [PyObj.intV 1]⟩] 0 1
      (by decide) (by decide)).2.1⟩

/-- C10: `Polynomial.multiply` returns a polynomial whose roots are the
concatenation of the operands' roots, whose order is the sum of the orders,
and whose leading term is the product of the leading terms. -/
theorem polynomial_multiply_spec (p q : Polynomial) :
    (p.multiply q).roots = p.roots ++ q.roots ∧
      (p.multiply q).order = p.order + q.order ∧
      (p.multiply q).leading_term = p.leading_term * q.leading_term := by
  refine ⟨rfl, ?_, rfl⟩
  simp [Polynomial.multiply, Polynomial.order]

end ClassesOop
